import Mathlib

/-!
Verification development for a Django portfolio site (app `main`).

The definitions below are a shallow embedding of the data model
(`main/models.py`), the form (`main/forms.py`) and the views
(`main/views.py`).  Database tables are lists of rows; a queryset is the
list a view's filter chain produces; HTTP outcomes are small inductive
types (`ok` / `notFound` standing for a rendered page / `Http404`).
Stored comma-delimited text (tags) is manipulated with explicit
`List Char` functions mirroring Python's `str.split`, `str.strip` and
`django.utils.text.slugify`, so every definition evaluates by kernel
reduction on concrete rows.
-/

namespace Portfolio

/-- Split a character list at every occurrence of `sep`, keeping empty
pieces, as Python's `str.split(sep)` does ("a,,b" gives three pieces). -/
def splitOnChar (sep : Char) : List Char → List (List Char)
  | [] => [[]]
  | c :: rest =>
    if c = sep then [] :: splitOnChar sep rest
    else
      match splitOnChar sep rest with
      | [] => [[c]]
      | t :: ts => (c :: t) :: ts

/-- Drop the longest run of elements satisfying `p` at the end of the list. -/
def dropTrail {α : Type} (p : α → Bool) (l : List α) : List α :=
  ((l.reverse.dropWhile p).reverse)

/-- Both-ends whitespace strip, as Python's `str.strip()`. -/
def trimChars (l : List Char) : List Char :=
  dropTrail Char.isWhitespace (l.dropWhile Char.isWhitespace)

/-- Python `s.strip()` on a Lean string. -/
def pyStrip (s : String) : String :=
  String.mk (trimChars s.data)

/-- Python slice `s[:n]`. -/
def pyTake (n : Nat) (s : String) : String :=
  String.mk (s.data.take n)

/-- Project.get_tags_list / the blog tag parsing in views.py:
`[tag.strip() for tag in tags.split(",") if tag.strip()]`. -/
def getTagsList (tags : String) : List String :=
  (((splitOnChar ',' tags.data).map trimChars).filter (fun t => !t.isEmpty)).map
    (fun t => String.mk t)

/-- Iterating a Python string yields its characters as one-character
strings; this is what `tags__in=post.tags` compares against. -/
def charTags (tags : String) : List String :=
  tags.data.map (fun c => String.mk [c])

/-- Lower-cased character list of a string. -/
def lowerStr (s : String) : List Char :=
  s.data.map Char.toLower

/-- Substring test on character lists. -/
def containsSub (hay needle : List Char) : Bool :=
  (List.range (hay.length + 1)).any (fun i => needle.isPrefixOf (hay.drop i))

/-- Case-insensitive substring test: Django's `__icontains` lookup. -/
def icontains (hay needle : String) : Bool :=
  containsSub (lowerStr hay) (lowerStr needle)

/-- Case-insensitive equality: Django's `__iexact` lookup. -/
def iexact (a b : String) : Bool :=
  lowerStr a == lowerStr b

/-- Stable-enough insertion step for the list sort used to model Django's
`order_by` (which order ties take is unspecified at the SQL level). -/
def insertLe {α : Type} (le : α → α → Bool) (x : α) : List α → List α
  | [] => [x]
  | y :: ys => if le x y then x :: y :: ys else y :: insertLe le x ys

/-- Insertion sort by a boolean `le`; models a queryset's `order_by`. -/
def sortLe {α : Type} (le : α → α → Bool) : List α → List α
  | [] => []
  | x :: xs => insertLe le x (sortLe le xs)

/-- A django `request.GET` parameter filter: Python applies the filter only
when the parameter is present and truthy (a non-empty string). -/
def optFilter {α : Type} (param : Option String) (f : String → α → Bool)
    (l : List α) : List α :=
  match param with
  | some v => if v = "" then l else l.filter (f v)
  | none => l

/-! Rows of the relational schema (`main/models.py`), restricted to the
fields the verified claims touch. -/

/-- ProjectCategory row (models.py: name, unique slug, order). -/
structure ProjectCategoryRow where
  id : Nat
  name : String
  slug : String
  order : Nat
deriving DecidableEq

/-- Project row (models.py), with `category` a nullable foreign key and
`tags` the comma-delimited text field. -/
structure ProjectRow where
  id : Nat
  title : String
  slug : String
  short_description : String
  category : Option Nat
  tags : String
  status : String
  github_url : String
  is_featured : Bool
  is_published : Bool
  order : Nat
  created_at : Nat
deriving DecidableEq

/-- BlogPost row (models.py): free-text category, comma-delimited tags,
`status` in draft/published/archived, nullable `published_at`. -/
structure BlogPostRow where
  id : Nat
  title : String
  slug : String
  excerpt : String
  content : String
  category : String
  tags : String
  status : String
  published_at : Option Nat
  view_count : Nat
  created_at : Nat
deriving DecidableEq

/-- SiteSettings row (models.py): the singleton settings record. -/
structure SiteSettingsRow where
  pk : Nat
  site_name : String
  site_tagline : String
  contact_email : String
  notification_email : String
  enable_blog : Bool
  enable_contact_form : Bool
  enable_testimonials : Bool
  maintenance_mode : Bool
deriving DecidableEq

/-- ContactMessage row (models.py): status defaults to "new", `is_read`
to false; `ip_address` is nullable. -/
structure ContactMessageRow where
  name : String
  email : String
  subject : String
  message : String
  status : String
  ip_address : Option String
  user_agent : String
  is_read : Bool
deriving DecidableEq

/-! Project listing, detail, related lookup and the JSON project API
(views.py: ProjectListView, ProjectDetailView, api_projects,
api_project_detail). -/

/-- GET parameters of the project listing. -/
structure ProjectListParams where
  category : Option String
  tag : Option String
  status : Option String
  search : Option String

/-- Keys of Project.STATUS_CHOICES. -/
def projectStatusKeys : List String :=
  ["completed", "in_progress", "planned", "archived"]

/-- Slug of a project's category through the nullable foreign key
(`category__slug` joins to the ProjectCategory table). -/
def categorySlugOf (categories : List ProjectCategoryRow) (p : ProjectRow) :
    Option String :=
  (p.category.bind (fun cid => categories.find? (fun k => k.id == cid))).map
    (fun k => k.slug)

/-- Project Meta ordering and the listing's explicit
`order_by('-is_featured', 'order', '-created_at')`. -/
def projectOrderLe (a b : ProjectRow) : Bool :=
  if a.is_featured != b.is_featured then a.is_featured
  else if a.order != b.order then decide (a.order < b.order)
  else decide (b.created_at ≤ a.created_at)

/-- The listing's status narrowing: applied only when the parameter is a
non-empty string among Project.STATUS_CHOICES keys; an unknown value is
silently ignored, as in the view. -/
def statusFilter (param : Option String) (l : List ProjectRow) :
    List ProjectRow :=
  match param with
  | some st =>
      if st ≠ "" && projectStatusKeys.contains st then
        l.filter (fun p => p.status == st)
      else l
  | none => l

/-- ProjectListView.get_queryset: always `is_published=True`, then the
optional category / tag / status / search narrowing, then the ordering. -/
def projectListQueryset (categories : List ProjectCategoryRow)
    (projects : List ProjectRow) (params : ProjectListParams) :
    List ProjectRow :=
  let qs0 := projects.filter (fun p => p.is_published)
  let qs1 := optFilter params.category
    (fun c p => categorySlugOf categories p == some c) qs0
  let qs2 := optFilter params.tag (fun t p => icontains p.tags t) qs1
  let qs3 := statusFilter params.status qs2
  let qs4 := optFilter params.search
    (fun q p =>
      icontains p.title q || icontains p.short_description q ||
        icontains p.tags q) qs3
  sortLe projectOrderLe qs4

/-- Outcome of a paginated listing request: a page of items, or Http404. -/
inductive PageResult (α : Type) where
  | ok (items : List α)
  | notFound
deriving DecidableEq

/-- Django Paginator.num_pages with `allow_empty_first_page` (the ListView
default) and no orphans: `ceil(max(1, count) / per_page)`. -/
def numPages (count perPage : Nat) : Nat :=
  (max 1 count + perPage - 1) / perPage

/-- Django ListView.paginate_queryset on a numeric page parameter: a page
number below 1 or beyond `num_pages` raises Http404 (an `InvalidPage` from
the paginator); otherwise the page holds the corresponding slice. -/
def paginateQueryset {α : Type} (l : List α) (perPage page : Nat) :
    PageResult α :=
  if page < 1 then .notFound
  else if numPages l.length perPage < page then .notFound
  else .ok ((l.drop ((page - 1) * perPage)).take perPage)

/-- The project listing page: ProjectListView with `paginate_by = 9`. -/
def projectListGet (categories : List ProjectCategoryRow)
    (projects : List ProjectRow) (params : ProjectListParams) (page : Nat) :
    PageResult ProjectRow :=
  paginateQueryset (projectListQueryset categories projects params) 9 page

/-- ProjectDetailView.get_object over get_queryset's
`filter(is_published=True)`: `none` stands for Http404. -/
def projectDetailGet (projects : List ProjectRow) (slug : String) :
    Option ProjectRow :=
  (projects.filter (fun p => p.is_published)).find? (fun p => p.slug == slug)

/-- ProjectDetailView.get_context_data's related lookup: published
projects other than this one, same category or whole tags field equal to
one of this project's parsed tags (`tags__in=project.get_tags_list()`),
default Meta ordering, first three. -/
def relatedProjects (projects : List ProjectRow) (p : ProjectRow) :
    List ProjectRow :=
  (sortLe projectOrderLe
    (((projects.filter (fun q => q.is_published)).filter
        (fun q => q.id != p.id)).filter
      (fun q =>
        q.category == p.category || (getTagsList p.tags).contains q.tags))).take 3

/-- api_projects: published projects, optionally narrowed by
`category__slug`. -/
def apiProjects (categories : List ProjectCategoryRow)
    (projects : List ProjectRow) (category : Option String) :
    List ProjectRow :=
  optFilter category (fun c p => categorySlugOf categories p == some c)
    (projects.filter (fun p => p.is_published))

/-- api_project_detail: `get_object_or_404` over
`Project.objects.filter(is_published=True)` by slug. -/
def apiProjectDetail (projects : List ProjectRow) (slug : String) :
    Option ProjectRow :=
  (projects.filter (fun p => p.is_published)).find? (fun p => p.slug == slug)

/-! Blog listing and detail (views.py: BlogListView, BlogDetailView). -/

/-- GET parameters of the blog listing. -/
structure BlogListParams where
  category : Option String
  tag : Option String
  search : Option String

/-- The base blog filter `status='published', published_at__lte=now`:
a SQL comparison against NULL is not true, so a row whose `published_at`
is unset never passes. -/
def blogPublishedFilter (posts : List BlogPostRow) (now : Nat) :
    List BlogPostRow :=
  posts.filter
    (fun p =>
      p.status == "published" &&
        match p.published_at with
        | some t => decide (t ≤ now)
        | none => false)

/-- BlogListView's `order_by('-published_at')`. -/
def blogListOrderLe (a b : BlogPostRow) : Bool :=
  decide (b.published_at.getD 0 ≤ a.published_at.getD 0)

/-- BlogPost Meta ordering `['-published_at', '-created_at']`, used by the
related-posts queryset. -/
def blogMetaOrderLe (a b : BlogPostRow) : Bool :=
  if a.published_at != b.published_at then
    decide (b.published_at.getD 0 ≤ a.published_at.getD 0)
  else decide (b.created_at ≤ a.created_at)

/-- BlogListView.get_queryset: the published filter, optional
case-insensitive category, tag substring and search narrowing, newest
published first. -/
def blogListQueryset (posts : List BlogPostRow) (now : Nat)
    (params : BlogListParams) : List BlogPostRow :=
  let qs0 := blogPublishedFilter posts now
  let qs1 := optFilter params.category (fun c p => iexact p.category c) qs0
  let qs2 := optFilter params.tag (fun t p => icontains p.tags t) qs1
  let qs3 := optFilter params.search
    (fun q p =>
      icontains p.title q || icontains p.excerpt q || icontains p.content q)
    qs2
  sortLe blogListOrderLe qs3

/-- Outcome of one HTML route: a rendered page or Http404. -/
inductive HttpStatus where
  | ok
  | notFound
deriving DecidableEq

/-- The blog listing request: ListView paginates (`paginate_by = 10`,
Http404 past the last page), then BlogListView.get_context_data raises
Http404 when `site_settings.enable_blog` is off. -/
def blogListGet (settings : SiteSettingsRow) (posts : List BlogPostRow)
    (now : Nat) (params : BlogListParams) (page : Nat) :
    PageResult BlogPostRow :=
  match paginateQueryset (blogListQueryset posts now params) 10 page with
  | .notFound => .notFound
  | .ok items => if settings.enable_blog then .ok items else .notFound

/-- The persisted effect of `obj.view_count += 1;
obj.save(update_fields=['view_count'])`: the row with this primary key
gets the incremented count. -/
def incrementViewCount (posts : List BlogPostRow) (pid : Nat) :
    List BlogPostRow :=
  posts.map
    (fun q =>
      if q.id == pid then { q with view_count := q.view_count + 1 } else q)

/-- The blog detail request, in the order DetailView.get runs it:
get_object over the published queryset (Http404 on a miss), which on a hit
increments and saves `view_count`; then get_context_data, which raises
Http404 when `enable_blog` is off.  Returns the HTTP outcome and the
BlogPost table after the request. -/
def blogDetailGet (settings : SiteSettingsRow) (posts : List BlogPostRow)
    (now : Nat) (slug : String) : HttpStatus × List BlogPostRow :=
  match (blogPublishedFilter posts now).find? (fun p => p.slug == slug) with
  | none => (.notFound, posts)
  | some p =>
      let posts' := incrementViewCount posts p.id
      if settings.enable_blog then (.ok, posts') else (.notFound, posts')

/-- BlogDetailView.get_context_data's related lookup: published posts
other than this one, same category or `tags__in=post.tags` — `post.tags`
is a Python string, so iterating it yields its characters and the clause
matches posts whose whole tags field equals one character of this post's
tags; Meta ordering, first three. -/
def relatedPosts (posts : List BlogPostRow) (now : Nat) (p : BlogPostRow) :
    List BlogPostRow :=
  (sortLe blogMetaOrderLe
    (((blogPublishedFilter posts now).filter (fun q => q.id != p.id)).filter
      (fun q =>
        q.category == p.category || (charTags p.tags).contains q.tags))).take 3

/-! The non-atomic view-count increment (views.py
BlogDetailView.get_object), modelled as an explicit read action followed
by a write action on the persisted counter, so concurrent detail fetches
can interleave. -/

/-- One primitive action of a detail fetch on a post's stored
`view_count`: the read that loads `obj.view_count`, or the save that
stores the previously read value plus one. -/
inductive IncAction where
  | read (tid : Nat)
  | write (tid : Nat)
deriving DecidableEq

/-- Thread id of an action. -/
def IncAction.tid : IncAction → Nat
  | .read t => t
  | .write t => t

/-- State: the persisted counter and each thread's loaded value. -/
def incStep (σ : Nat × (Nat → Option Nat)) (a : IncAction) :
    Nat × (Nat → Option Nat) :=
  match a with
  | .read t => (σ.1, fun u => if u = t then some σ.1 else σ.2 u)
  | .write t =>
      match σ.2 t with
      | some v => (v + 1, σ.2)
      | none => σ

/-- The persisted counter after running a schedule from count `c`. -/
def execSchedule (sched : List IncAction) (c : Nat) : Nat :=
  (sched.foldl incStep (c, fun _ => none)).1

/-- The two actions one successful detail fetch performs, in program
order: load `obj.view_count`, then save the loaded value plus one. -/
def fetchActions (t : Nat) : List IncAction :=
  [.read t, .write t]

/-- A schedule is an interleaving of `n` concurrent detail fetches when
each thread's subsequence is exactly its fetch, in program order. -/
def isInterleaving (sched : List IncAction) (n : Nat) : Prop :=
  (∀ a ∈ sched, a.tid < n) ∧
    ∀ t < n, sched.filter (fun a => a.tid == t) = fetchActions t

/-! Slug derivation on save (models.py: ProjectCategory.save,
Project.save, BlogPost.save; django.utils.text.slugify). -/

/-- Character class collapsed to a hyphen by slugify: `[-\s]+`. -/
def isDashOrSpace (c : Char) : Bool :=
  c = '-' || c.isWhitespace

/-- Replace every run of hyphens/whitespace by a single hyphen; the flag
records whether the previous character belonged to a run. -/
def collapseDashRuns : Bool → List Char → List Char
  | _, [] => []
  | inRun, c :: rest =>
    if isDashOrSpace c then
      if inRun then collapseDashRuns true rest
      else '-' :: collapseDashRuns true rest
    else c :: collapseDashRuns false rest

/-- Python `.strip("-_")` at the end of slugify. -/
def slugStrip (l : List Char) : List Char :=
  dropTrail (fun c => c = '-' || c = '_')
    (l.dropWhile (fun c => c = '-' || c = '_'))

/-- django.utils.text.slugify for ASCII input: lower-case, drop characters
outside `[\w\s-]`, collapse `[-\s]+` runs to hyphens, strip `-_` ends. -/
def slugify (s : String) : String :=
  String.mk
    (slugStrip
      (collapseDashRuns false
        ((s.data.map Char.toLower).filter
          (fun c => c.isAlphanum || c = '_' || c = '-' || c.isWhitespace))))

/-- ProjectCategory.save: derive the slug from the name only when the slug
field is empty (Python falsy). -/
def projectCategorySave (c : ProjectCategoryRow) : ProjectCategoryRow :=
  if c.slug = "" then { c with slug := slugify c.name } else c

/-- Project.save: derive the slug from the title only when empty. -/
def projectSave (p : ProjectRow) : ProjectRow :=
  if p.slug = "" then { p with slug := slugify p.title } else p

/-- BlogPost.save: derive the slug from the title only when empty. -/
def blogPostSave (b : BlogPostRow) : BlogPostRow :=
  if b.slug = "" then { b with slug := slugify b.title } else b

/-! SiteSettings singleton (models.py: save forces pk = 1, delete is a
no-op, load is get_or_create(pk=1)). -/

/-- Defaults of SiteSettings for objects.create with no arguments. -/
def defaultSiteSettings : SiteSettingsRow :=
  { pk := 1, site_name := "Portfolio", site_tagline := "",
    contact_email := "", notification_email := "", enable_blog := false,
    enable_contact_form := true, enable_testimonials := true,
    maintenance_mode := false }

/-- SiteSettings.save: the instance's pk is forced to 1 and the row with
pk 1 is updated, or inserted when absent. -/
def siteSettingsSave (db : List SiteSettingsRow) (s : SiteSettingsRow) :
    List SiteSettingsRow :=
  let s' := { s with pk := 1 }
  if db.any (fun r => r.pk == 1) then
    db.map (fun r => if r.pk == 1 then s' else r)
  else db ++ [s']

/-- SiteSettings.delete: `pass` — the table is untouched. -/
def siteSettingsDelete (db : List SiteSettingsRow) : List SiteSettingsRow :=
  db

/-- SiteSettings.load: get_or_create(pk=1) — return the existing row, or
create the default one (whose save lands on pk 1). -/
def siteSettingsLoad (db : List SiteSettingsRow) :
    SiteSettingsRow × List SiteSettingsRow :=
  match db.find? (fun r => r.pk == 1) with
  | some r => (r, db)
  | none => (defaultSiteSettings, siteSettingsSave db defaultSiteSettings)

/-! Contact intake (views.py: contact_submit, get_client_ip;
forms.py: ContactForm, a ModelForm over name/email/subject/message). -/

/-- The parts of the POST request contact_submit reads. -/
structure ContactRequest where
  post_name : String
  post_email : String
  post_subject : String
  post_message : String
  http_x_forwarded_for : Option String
  remote_addr : Option String
  http_user_agent : Option String
  is_ajax : Bool

/-- First entry of a comma-separated header value:
`x_forwarded_for.split(',')[0]`. -/
def firstForwarded (x : String) : String :=
  String.mk ((splitOnChar ',' x.data).headD x.data)

/-- get_client_ip: the first X-Forwarded-For entry when that header is
present and non-empty (Python truthiness), else REMOTE_ADDR. -/
def get_client_ip (req : ContactRequest) : Option String :=
  match req.http_x_forwarded_for with
  | some x => if x = "" then req.remote_addr else some (firstForwarded x)
  | none => req.remote_addr

/-- Simplified embedding of Django's EmailValidator, faithful on the
inputs exercised here: one `@`, a non-empty local part, and a domain of at
least two non-empty dot-separated labels. -/
def emailValid (s : String) : Bool :=
  match splitOnChar '@' s.data with
  | [user, domain] =>
      !user.isEmpty &&
        (decide (2 ≤ (splitOnChar '.' domain).length) &&
          (splitOnChar '.' domain).all (fun l => !l.isEmpty))
  | _ => false

/-- Fields ContactForm.is_valid flags: name and message are required
(whitespace-stripped) with a max length, email is required and must be
syntactically valid, subject is optional but bounded. -/
def formErrors (req : ContactRequest) : List String :=
  (if pyStrip req.post_name = "" || 200 < (pyStrip req.post_name).length then
      ["name"]
    else []) ++
  (if pyStrip req.post_email = "" || !emailValid (pyStrip req.post_email) ||
        254 < (pyStrip req.post_email).length then
      ["email"]
    else []) ++
  (if 300 < (pyStrip req.post_subject).length then ["subject"] else []) ++
  (if pyStrip req.post_message = "" then ["message"] else [])

/-- What contact_submit answers: the JSON success payload or the redirect
with a success flash on the valid path, the JSON error payload (status
400, `form.errors` keyed by field) or the redirect with an error flash on
the invalid path. -/
inductive ContactResponse where
  | jsonSuccess
  | redirectSuccess
  | jsonError (errors : List String)
  | redirectError
deriving DecidableEq

/-- Result of one contact_submit request: the response, the ContactMessage
table afterwards, and whether a notification email was attempted. -/
structure ContactOutcome where
  response : ContactResponse
  messagesDb : List ContactMessageRow
  emailAttempted : Bool
deriving DecidableEq

/-- views.contact_submit.  On a valid form it creates one ContactMessage
(model defaults: status "new", is_read false) with the client IP and the
truncated user agent, then attempts the notification email —
`fail_silently=True` inside a try/except, so `emailFails` influences
nothing observable; on an invalid form nothing is persisted and no email
is attempted. -/
def contact_submit (req : ContactRequest) (db : List ContactMessageRow)
    (emailFails : Bool) : ContactOutcome :=
  if formErrors req = [] then
    let msg : ContactMessageRow :=
      { name := pyStrip req.post_name, email := pyStrip req.post_email,
        subject := pyStrip req.post_subject,
        message := pyStrip req.post_message, status := "new",
        ip_address := get_client_ip req,
        user_agent := pyTake 500 (req.http_user_agent.getD ""),
        is_read := false }
    { response := if req.is_ajax then .jsonSuccess else .redirectSuccess,
      messagesDb := db ++ [msg],
      emailAttempted := true }
  else
    { response :=
        if req.is_ajax then .jsonError (formErrors req) else .redirectError,
      messagesDb := db,
      emailAttempted := false }

/-! General lemmas about the embedding's list and string helpers. -/

lemma length_dropWhile_le {α : Type} (p : α → Bool) (l : List α) :
    (l.dropWhile p).length ≤ l.length := by
  induction l with
  | nil => simp
  | cons c rest ih =>
      by_cases h : p c
      · simp only [List.dropWhile, h]
        exact Nat.le_trans ih (Nat.le_succ _)
      · simp [List.dropWhile, h]

lemma mem_of_mem_dropWhile {α : Type} {p : α → Bool} :
    ∀ {l : List α} {a : α}, a ∈ l.dropWhile p → a ∈ l := by
  intro l
  induction l with
  | nil => intro a h; simp at h
  | cons c rest ih =>
      intro a h
      by_cases hc : p c
      · simp only [List.dropWhile, hc] at h
        exact List.mem_cons_of_mem c (ih h)
      · simp only [List.dropWhile, hc] at h
        exact h

lemma dropWhile_dropWhile_self {α : Type} (p : α → Bool) (l : List α) :
    (l.dropWhile p).dropWhile p = l.dropWhile p := by
  induction l with
  | nil => rfl
  | cons c rest ih =>
      by_cases h : p c
      · simp only [List.dropWhile, h]
        exact ih
      · simp [List.dropWhile, h]

lemma mem_of_mem_dropTrail {α : Type} {p : α → Bool} {l : List α} {a : α}
    (h : a ∈ dropTrail p l) : a ∈ l := by
  unfold dropTrail at h
  rw [List.mem_reverse] at h
  exact List.mem_reverse.mp (mem_of_mem_dropWhile h)

lemma dropTrail_idem {α : Type} (p : α → Bool) (l : List α) :
    dropTrail p (dropTrail p l) = dropTrail p l := by
  unfold dropTrail
  rw [List.reverse_reverse, dropWhile_dropWhile_self]

lemma dropTrail_cons_of_neg {α : Type} (p : α → Bool) {x : α}
    (hx : p x = false) (xs : List α) :
    dropTrail p (x :: xs) = x :: dropTrail p xs := by
  unfold dropTrail
  rw [List.reverse_cons, List.dropWhile_append]
  by_cases h : (xs.reverse.dropWhile p).isEmpty
  · rw [if_pos h]
    rw [List.isEmpty_iff] at h
    simp [List.dropWhile, hx, h]
  · rw [if_neg h]
    simp

lemma dropWhile_dropTrail_self {α : Type} (p : α → Bool) {l : List α}
    (hl : l.dropWhile p = l) :
    (dropTrail p l).dropWhile p = dropTrail p l := by
  cases l with
  | nil => rfl
  | cons x xs =>
      have hx : p x = false := by
        by_cases hx' : p x
        · exfalso
          simp only [List.dropWhile, hx'] at hl
          have hle := length_dropWhile_le p xs
          rw [hl] at hle
          simp at hle
        · simpa using hx'
      rw [dropTrail_cons_of_neg p hx]
      simp [List.dropWhile, hx]

lemma trimChars_idem (l : List Char) : trimChars (trimChars l) = trimChars l := by
  unfold trimChars
  have h1 : (l.dropWhile Char.isWhitespace).dropWhile Char.isWhitespace =
      l.dropWhile Char.isWhitespace := dropWhile_dropWhile_self _ _
  have h2 := dropWhile_dropTrail_self Char.isWhitespace h1
  rw [h2, dropTrail_idem]

lemma mem_of_mem_trimChars {l : List Char} {a : Char}
    (h : a ∈ trimChars l) : a ∈ l := by
  unfold trimChars at h
  exact mem_of_mem_dropWhile (mem_of_mem_dropTrail h)

lemma splitOnChar_ne_nil (sep : Char) (l : List Char) :
    splitOnChar sep l ≠ [] := by
  cases l with
  | nil => simp [splitOnChar]
  | cons c rest =>
      unfold splitOnChar
      by_cases h : c = sep
      · simp [h]
      · rw [if_neg h]
        cases hs : splitOnChar sep rest <;> simp

lemma sep_not_mem_of_mem_splitOnChar {sep : Char} :
    ∀ {l t : List Char}, t ∈ splitOnChar sep l → sep ∉ t := by
  intro l
  induction l with
  | nil =>
      intro t ht
      simp only [splitOnChar, List.mem_singleton] at ht
      subst ht
      simp
  | cons c rest ih =>
      intro t ht
      unfold splitOnChar at ht
      by_cases h : c = sep
      · rw [if_pos h] at ht
        rcases List.mem_cons.mp ht with h1 | h2
        · subst h1; simp
        · exact ih h2
      · rw [if_neg h] at ht
        cases hs : splitOnChar sep rest with
        | nil => exact absurd hs (splitOnChar_ne_nil sep rest)
        | cons t0 ts =>
            rw [hs] at ht
            rcases List.mem_cons.mp ht with h1 | h2
            · subst h1
              intro hmem
              rcases List.mem_cons.mp hmem with h3 | h4
              · exact h h3.symm
              · exact ih (hs ▸ List.mem_cons_self t0 ts) h4
            · exact ih (hs ▸ List.mem_cons_of_mem t0 h2)

lemma splitOnChar_eq_self {sep : Char} :
    ∀ {l : List Char}, sep ∉ l → splitOnChar sep l = [l] := by
  intro l
  induction l with
  | nil => intro _; rfl
  | cons c rest ih =>
      intro h
      have hc : ¬ c = sep := fun he => h (he ▸ List.mem_cons_self c rest)
      unfold splitOnChar
      rw [if_neg hc, ih (fun hm => h (List.mem_cons_of_mem c hm))]

lemma mem_getTagsList_self {s t : String} (h : s ∈ getTagsList t) :
    s ∈ getTagsList s := by
  unfold getTagsList at h ⊢
  rcases List.mem_map.mp h with ⟨v, hv, rfl⟩
  rcases List.mem_filter.mp hv with ⟨hv1, hv2⟩
  rcases List.mem_map.mp hv1 with ⟨u, hu, rfl⟩
  have hcomma : ',' ∉ trimChars u :=
    fun hm => sep_not_mem_of_mem_splitOnChar hu (mem_of_mem_trimChars hm)
  have hdata : (String.mk (trimChars u)).data = trimChars u := rfl
  rw [hdata, splitOnChar_eq_self hcomma]
  simp only [List.map_cons, List.map_nil, trimChars_idem]
  simp only [List.filter, hv2]
  simp

/-! Lemmas about the `order_by` model. -/

lemma mem_insertLe {α : Type} (le : α → α → Bool) (x a : α) :
    ∀ l : List α, (a ∈ insertLe le x l ↔ a = x ∨ a ∈ l) := by
  intro l
  induction l with
  | nil => simp [insertLe]
  | cons y ys ih =>
      unfold insertLe
      by_cases h : le x y
      · rw [if_pos h]
        simp [List.mem_cons]
      · rw [if_neg h]
        simp only [List.mem_cons, ih]
        tauto

lemma insertLe_perm {α : Type} (le : α → α → Bool) (x : α) :
    ∀ l : List α, List.Perm (insertLe le x l) (x :: l) := by
  intro l
  induction l with
  | nil => exact List.Perm.refl _
  | cons y ys ih =>
      unfold insertLe
      by_cases h : le x y
      · rw [if_pos h]
      · rw [if_neg h]
        exact List.Perm.trans (List.Perm.cons y ih) (List.Perm.swap x y ys)

lemma sortLe_perm {α : Type} (le : α → α → Bool) :
    ∀ l : List α, List.Perm (sortLe le l) l := by
  intro l
  induction l with
  | nil => exact List.Perm.refl _
  | cons x xs ih =>
      exact List.Perm.trans (insertLe_perm le x (sortLe le xs))
        (List.Perm.cons x ih)

lemma mem_sortLe {α : Type} {le : α → α → Bool} {a : α} {l : List α} :
    a ∈ sortLe le l ↔ a ∈ l :=
  List.Perm.mem_iff (sortLe_perm le l)

lemma nodup_sortLe {α : Type} {le : α → α → Bool} {l : List α}
    (h : l.Nodup) : (sortLe le l).Nodup :=
  (List.Perm.nodup_iff (sortLe_perm le l)).mpr h

/-! Lemmas about the query layer. -/

lemma mem_of_mem_optFilter {α : Type} {param : Option String}
    {f : String → α → Bool} {l : List α} {a : α}
    (h : a ∈ optFilter param f l) : a ∈ l := by
  cases param with
  | none => exact h
  | some v =>
      simp only [optFilter] at h
      by_cases hv : v = ""
      · rw [if_pos hv] at h; exact h
      · rw [if_neg hv] at h; exact List.mem_of_mem_filter h

lemma mem_of_mem_statusFilter {param : Option String} {l : List ProjectRow}
    {a : ProjectRow} (h : a ∈ statusFilter param l) : a ∈ l := by
  cases param with
  | none => exact h
  | some st =>
      simp only [statusFilter] at h
      by_cases hc : (decide (st ≠ "") && projectStatusKeys.contains st) = true
      · rw [if_pos hc] at h; exact List.mem_of_mem_filter h
      · rw [if_neg hc] at h; exact h

lemma mem_projectListQueryset {cats : List ProjectCategoryRow}
    {ps : List ProjectRow} {pr : ProjectListParams} {p : ProjectRow}
    (h : p ∈ projectListQueryset cats ps pr) :
    p ∈ ps ∧ p.is_published = true := by
  simp only [projectListQueryset] at h
  replace h := mem_sortLe.mp h
  replace h := mem_of_mem_optFilter h
  replace h := mem_of_mem_statusFilter h
  replace h := mem_of_mem_optFilter h
  replace h := mem_of_mem_optFilter h
  exact List.mem_filter.mp h

lemma mem_blogPublishedFilter {posts : List BlogPostRow} {now : Nat}
    {q : BlogPostRow} (h : q ∈ blogPublishedFilter posts now) :
    q ∈ posts ∧ q.status = "published" ∧
      ∃ t, q.published_at = some t ∧ t ≤ now := by
  unfold blogPublishedFilter at h
  rcases List.mem_filter.mp h with ⟨hmem, hcond⟩
  rw [Bool.and_eq_true] at hcond
  refine ⟨hmem, eq_of_beq hcond.1, ?_⟩
  rcases hp : q.published_at with _ | t
  · rw [hp] at hcond
    exact absurd hcond.2 (by simp)
  · rw [hp] at hcond
    exact ⟨t, rfl, by simpa using hcond.2⟩

lemma mem_blogListQueryset {posts : List BlogPostRow} {now : Nat}
    {params : BlogListParams} {q : BlogPostRow}
    (h : q ∈ blogListQueryset posts now params) :
    q ∈ blogPublishedFilter posts now := by
  simp only [blogListQueryset] at h
  replace h := mem_sortLe.mp h
  replace h := mem_of_mem_optFilter h
  replace h := mem_of_mem_optFilter h
  exact mem_of_mem_optFilter h

lemma paginate_ok_mem {α : Type} {l : List α} {per page : Nat}
    {items : List α} (h : paginateQueryset l per page = .ok items) {a : α}
    (ha : a ∈ items) : a ∈ l := by
  unfold paginateQueryset at h
  by_cases h1 : page < 1
  · rw [if_pos h1] at h; cases h
  · rw [if_neg h1] at h
    by_cases h2 : numPages l.length per < page
    · rw [if_pos h2] at h; cases h
    · rw [if_neg h2] at h
      injection h with h3
      rw [← h3] at ha
      exact List.mem_of_mem_drop (List.mem_of_mem_take ha)

lemma paginate_out_of_range {α : Type} {l : List α} {per page : Nat}
    (h : numPages l.length per < page) :
    paginateQueryset l per page = .notFound := by
  unfold paginateQueryset
  by_cases h1 : page < 1
  · rw [if_pos h1]
  · rw [if_neg h1, if_pos h]

lemma paginate_ok_length {α : Type} {l : List α} {per page : Nat}
    {items : List α} (h : paginateQueryset l per page = .ok items) :
    items.length ≤ per ∧ (page * per ≤ l.length → items.length = per) := by
  unfold paginateQueryset at h
  by_cases h1 : page < 1
  · rw [if_pos h1] at h; cases h
  · rw [if_neg h1] at h
    by_cases h2 : numPages l.length per < page
    · rw [if_pos h2] at h; cases h
    · rw [if_neg h2] at h
      injection h with h3
      obtain ⟨q, rfl⟩ : ∃ q, page = q + 1 := ⟨page - 1, by omega⟩
      rw [← h3, List.length_take, List.length_drop]
      constructor
      · exact Nat.min_le_left _ _
      · intro hfull
        rw [Nat.add_mul, Nat.one_mul] at hfull
        simp only [Nat.add_sub_cancel]
        omega

lemma mem_relatedProjects {projects : List ProjectRow} {p q : ProjectRow}
    (h : q ∈ relatedProjects projects p) :
    q ∈ projects ∧ q.is_published = true ∧ q.id ≠ p.id ∧
      (q.category == p.category ||
        (getTagsList p.tags).contains q.tags) = true := by
  unfold relatedProjects at h
  replace h := List.mem_of_mem_take h
  replace h := mem_sortLe.mp h
  rcases List.mem_filter.mp h with ⟨h2, hcond⟩
  rcases List.mem_filter.mp h2 with ⟨h3, hne⟩
  rcases List.mem_filter.mp h3 with ⟨h4, hpub⟩
  exact ⟨h4, hpub, by simpa using hne, hcond⟩

lemma mem_relatedPosts {posts : List BlogPostRow} {now : Nat}
    {b q : BlogPostRow} (h : q ∈ relatedPosts posts now b) :
    q ∈ blogPublishedFilter posts now ∧ q.id ≠ b.id ∧
      (q.category == b.category || (charTags b.tags).contains q.tags) = true := by
  unfold relatedPosts at h
  replace h := List.mem_of_mem_take h
  replace h := mem_sortLe.mp h
  rcases List.mem_filter.mp h with ⟨h2, hcond⟩
  rcases List.mem_filter.mp h2 with ⟨h3, hne⟩
  exact ⟨h3, by simpa using hne, hcond⟩

/-! The claims. -/

/-- C1: a Project row with `is_published = false` is absent from the
project listing queryset and from every rendered listing page, from the
JSON project-list API and from every related-projects result, and both
the HTML detail route and the JSON detail API for its slug answer
Http404 (slugs are unique, which the hypothesis `huniq` records). -/
theorem c1_unpublished_project_invisible
    (categories : List ProjectCategoryRow) (projects : List ProjectRow)
    (params : ProjectListParams) (cat : Option String) (page : Nat)
    (p : ProjectRow) (hmem : p ∈ projects) (hpub : p.is_published = false)
    (huniq : ∀ q ∈ projects, q.slug = p.slug → q = p) :
    p ∉ projectListQueryset categories projects params ∧
    (∀ items, projectListGet categories projects params page = .ok items →
      p ∉ items) ∧
    p ∉ apiProjects categories projects cat ∧
    (∀ q, p ∉ relatedProjects projects q) ∧
    projectDetailGet projects p.slug = none ∧
    apiProjectDetail projects p.slug = none := by
  have hdetail :
      (projects.filter (fun q => q.is_published)).find?
        (fun q => q.slug == p.slug) = none := by
    apply List.find?_eq_none.mpr
    intro x hx hbeq
    rcases List.mem_filter.mp hx with ⟨hxm, hxp⟩
    have hxeq := huniq x hxm (eq_of_beq hbeq)
    rw [hxeq, hpub] at hxp
    cases hxp
  refine ⟨?_, ?_, ?_, ?_, hdetail, hdetail⟩
  · intro h
    have h2 := (mem_projectListQueryset h).2
    rw [hpub] at h2
    cases h2
  · intro items hok hp
    have h2 := (mem_projectListQueryset (paginate_ok_mem hok hp)).2
    rw [hpub] at h2
    cases h2
  · intro h
    have h2 := (List.mem_filter.mp (mem_of_mem_optFilter h)).2
    rw [hpub] at h2
    cases h2
  · intro q h
    have h2 := (mem_relatedProjects h).2.1
    rw [hpub] at h2
    cases h2

/-- Sample table for the C1 witness: a single unpublished project. -/
def c1Hidden : ProjectRow :=
  { id := 7, title := "Hidden", slug := "hidden", short_description := "d",
    category := none, tags := "api", status := "completed", github_url := "",
    is_featured := false, is_published := false, order := 0, created_at := 3 }

/-- Listing request with no GET parameters. -/
def noGetParams : ProjectListParams :=
  { category := none, tag := none, status := none, search := none }

/-- C1 witness: the theorem applied to a concrete one-row table. -/
theorem c1_witness :
    projectDetailGet [c1Hidden] "hidden" = none ∧
    apiProjectDetail [c1Hidden] "hidden" = none ∧
    c1Hidden ∉ projectListQueryset [] [c1Hidden] noGetParams := by
  have h := c1_unpublished_project_invisible [] [c1Hidden] noGetParams none 1
    c1Hidden (by decide) (by decide) (by decide)
  exact ⟨h.2.2.2.2.1, h.2.2.2.2.2, h.1⟩

/-- C2: the code's view-count increment is the non-atomic read-then-write
pair of `BlogDetailView.get_object`.  The schedule where both of two
concurrent fetches read the stored count before either writes is a legal
interleaving of the two fetches, and it leaves the persisted count at
`c + 1` instead of the required `c + 2` — one update is lost — while the
same two fetches run back to back do produce `c + 2`. -/
theorem c2_view_count_lost_update (c : Nat) :
    isInterleaving [.read 0, .read 1, .write 0, .write 1] 2 ∧
    execSchedule [.read 0, .read 1, .write 0, .write 1] c = c + 1 ∧
    execSchedule (fetchActions 0 ++ fetchActions 1) c = c + 2 ∧
    c + 1 ≠ c + 2 := by
  refine ⟨⟨by decide, by decide⟩, ?_, ?_, by omega⟩
  · simp [execSchedule, incStep, List.foldl]
  · simp [execSchedule, fetchActions, incStep, List.foldl]

/-- C3 (amended): with `enable_blog = false` every blog listing and blog
detail request answers Http404 whatever BlogPost rows exist, and a detail
request whose slug matches no published post leaves the table unchanged —
but a detail request whose slug matches a published post still increments
that post's stored view_count, because the flag is checked only after
get_object has already saved the increment. -/
theorem c3_blog_disabled (settings : SiteSettingsRow)
    (posts : List BlogPostRow) (now : Nat) (params : BlogListParams)
    (page : Nat) (slug : String) (hflag : settings.enable_blog = false) :
    blogListGet settings posts now params page = .notFound ∧
    (blogDetailGet settings posts now slug).1 = .notFound ∧
    ((blogPublishedFilter posts now).find? (fun q => q.slug == slug) = none →
      (blogDetailGet settings posts now slug).2 = posts) ∧
    (∀ p, (blogPublishedFilter posts now).find? (fun q => q.slug == slug) =
        some p →
      (blogDetailGet settings posts now slug).2 =
        incrementViewCount posts p.id) := by
  refine ⟨?_, ?_, ?_, ?_⟩
  · unfold blogListGet
    cases paginateQueryset (blogListQueryset posts now params) 10 page with
    | notFound => rfl
    | ok items => simp [hflag]
  · unfold blogDetailGet
    cases hf : (blogPublishedFilter posts now).find? (fun q => q.slug == slug)
      with
    | none => rfl
    | some p => simp [hflag]
  · intro hf
    unfold blogDetailGet
    rw [hf]
  · intro p hf
    unfold blogDetailGet
    rw [hf]
    simp [hflag]

/-- Sample published post for C3: stored view_count 0. -/
def c3Post : BlogPostRow :=
  { id := 1, title := "Post", slug := "post", excerpt := "", content := "",
    category := "tech", tags := "django", status := "published",
    published_at := some 5, view_count := 0, created_at := 0 }

/-- Site settings with the blog feature flag off. -/
def c3Settings : SiteSettingsRow :=
  { defaultSiteSettings with enable_blog := false }

/-- C3 counterexample: with the blog disabled, the detail request for an
existing published post answers Http404 and nevertheless raises that
post's stored view_count from 0 to 1, so the claim's "under the disabled
flag no post's view_count changes" fails on the code. -/
theorem c3_counterexample :
    c3Settings.enable_blog = false ∧
    (blogDetailGet c3Settings [c3Post] 10 "post").1 = .notFound ∧
    c3Post.view_count = 0 ∧
    ((blogDetailGet c3Settings [c3Post] 10 "post").2.map
      (fun q => q.view_count)) = [1] := by
  exact ⟨rfl, by decide, rfl, by decide⟩

/-- C3 witness: the amended theorem applied to the concrete disabled-blog
table. -/
theorem c3_witness :
    blogListGet c3Settings [c3Post] 10
      { category := none, tag := none, search := none } 1 = .notFound ∧
    (blogDetailGet c3Settings [c3Post] 10 "post").1 = .notFound := by
  have h := c3_blog_disabled c3Settings [c3Post] 10
    { category := none, tag := none, search := none } 1 "post" rfl
  exact ⟨h.1, h.2.1⟩

/-- C4 (amended): both related-item lookups return at most three published
items other than the given one, without duplicates (primary keys being
unique).  For projects every returned item shares the category or a parsed
tag with the given project.  For blog posts the tag clause instead
compares a candidate's whole tags string with the single characters of the
given post's tags string (`tags__in=post.tags` iterates the string), so a
returned post is only guaranteed to share the category or to have its
whole tags field equal to one such character — not to share a parsed tag. -/
theorem c4_related_items (projects : List ProjectRow) (p : ProjectRow)
    (posts : List BlogPostRow) (now : Nat) (b : BlogPostRow)
    (hpids : (projects.map (fun q => q.id)).Nodup)
    (hbids : (posts.map (fun q => q.id)).Nodup) :
    (relatedProjects projects p).length ≤ 3 ∧
    p ∉ relatedProjects projects p ∧
    (relatedProjects projects p).Nodup ∧
    (∀ q ∈ relatedProjects projects p,
      q.is_published = true ∧ q.id ≠ p.id ∧
        (q.category = p.category ∨
          ∃ t, t ∈ getTagsList q.tags ∧ t ∈ getTagsList p.tags)) ∧
    (relatedPosts posts now b).length ≤ 3 ∧
    b ∉ relatedPosts posts now b ∧
    (relatedPosts posts now b).Nodup ∧
    (∀ q ∈ relatedPosts posts now b,
      (q.status = "published" ∧ ∃ t, q.published_at = some t ∧ t ≤ now) ∧
        q.id ≠ b.id ∧
        (q.category = b.category ∨ q.tags ∈ charTags b.tags)) := by
  refine ⟨?_, ?_, ?_, ?_, ?_, ?_, ?_, ?_⟩
  · exact List.length_take_le 3 _
  · intro h
    exact (mem_relatedProjects h).2.2.1 rfl
  · have hnd : projects.Nodup := List.Nodup.of_map _ hpids
    exact List.Sublist.nodup (List.take_sublist 3 _)
      (nodup_sortLe (List.Nodup.filter _ (List.Nodup.filter _
        (List.Nodup.filter _ hnd))))
  · intro q hq
    rcases mem_relatedProjects hq with ⟨_, hpub, hne, hcond⟩
    refine ⟨hpub, hne, ?_⟩
    have hcond2 : (q.category == p.category) = true ∨
        ((getTagsList p.tags).contains q.tags) = true := by
      simpa using hcond
    rcases hcond2 with hcat | htag
    · exact Or.inl (eq_of_beq hcat)
    · have hmem : q.tags ∈ getTagsList p.tags := by simpa using htag
      exact Or.inr ⟨q.tags, mem_getTagsList_self hmem, hmem⟩
  · exact List.length_take_le 3 _
  · intro h
    exact (mem_relatedPosts h).2.1 rfl
  · have hnd : posts.Nodup := List.Nodup.of_map _ hbids
    exact List.Sublist.nodup (List.take_sublist 3 _)
      (nodup_sortLe (List.Nodup.filter _ (List.Nodup.filter _
        (List.Nodup.filter _ hnd))))
  · intro q hq
    rcases mem_relatedPosts hq with ⟨hq1, hne, hcond⟩
    rcases mem_blogPublishedFilter hq1 with ⟨_, hst, ht⟩
    refine ⟨⟨hst, ht⟩, hne, ?_⟩
    have hcond2 : (q.category == b.category) = true ∨
        ((charTags b.tags).contains q.tags) = true := by
      simpa using hcond
    rcases hcond2 with hcat | htag
    · exact Or.inl (eq_of_beq hcat)
    · exact Or.inr (by simpa using htag)

/-- Sample blog post for C4: category "tech", tags "a,b". -/
def c4P : BlogPostRow :=
  { id := 1, title := "P", slug := "p", excerpt := "", content := "",
    category := "tech", tags := "a,b", status := "published",
    published_at := some 0, view_count := 0, created_at := 0 }

/-- Second sample post: different category, tags field a lone comma — its
parsed tag list is empty, yet the string "," is one character of
`c4P.tags`. -/
def c4Q : BlogPostRow :=
  { id := 2, title := "Q", slug := "q", excerpt := "", content := "",
    category := "life", tags := ",", status := "published",
    published_at := some 0, view_count := 0, created_at := 0 }

/-- C4 counterexample: `c4Q` is returned among the posts related to
`c4P` although it neither shares `c4P`'s category nor any parsed tag
(its parsed tag list is empty) — the character-wise `tags__in` clause
admitted it. -/
theorem c4_counterexample :
    c4Q ∈ relatedPosts [c4P, c4Q] 10 c4P ∧
    c4Q.category ≠ c4P.category ∧
    getTagsList c4Q.tags = [] := by
  exact ⟨by decide, by decide, by decide⟩

/-- Sample published project for C4: tags "api, django". -/
def c4Proj : ProjectRow :=
  { id := 3, title := "Proj", slug := "proj", short_description := "d",
    category := some 1, tags := "api, django", status := "completed",
    github_url := "", is_featured := false, is_published := true,
    order := 0, created_at := 0 }

/-- C4 witness: the amended theorem applied to concrete tables. -/
theorem c4_witness :
    (relatedPosts [c4P, c4Q] 10 c4P).length ≤ 3 ∧
    c4P ∉ relatedPosts [c4P, c4Q] 10 c4P ∧
    c4Proj ∉ relatedProjects [c4Proj] c4Proj := by
  have h := c4_related_items [c4Proj] c4Proj [c4P, c4Q] 10 c4P (by decide)
    (by decide)
  exact ⟨h.2.2.2.2.1, h.2.2.2.2.2.1, h.2.1⟩

/-- C5 (amended): each project listing page holds at most 9 projects —
exactly 9 whenever the page is full — and each blog listing page at most
10, exactly 10 when full; but a numeric page request beyond the last page
answers Http404 rather than clamping to the last page or returning an
empty page. -/
theorem c5_pagination (categories : List ProjectCategoryRow)
    (projects : List ProjectRow) (params : ProjectListParams)
    (settings : SiteSettingsRow) (posts : List BlogPostRow) (now : Nat)
    (bparams : BlogListParams) (page : Nat) :
    (∀ items, projectListGet categories projects params page = .ok items →
      items.length ≤ 9 ∧
        (page * 9 ≤ (projectListQueryset categories projects params).length →
          items.length = 9)) ∧
    (∀ items, blogListGet settings posts now bparams page = .ok items →
      items.length ≤ 10 ∧
        (page * 10 ≤ (blogListQueryset posts now bparams).length →
          items.length = 10)) ∧
    (numPages (projectListQueryset categories projects params).length 9 <
        page →
      projectListGet categories projects params page = .notFound) ∧
    (numPages (blogListQueryset posts now bparams).length 10 < page →
      blogListGet settings posts now bparams page = .notFound) := by
  refine ⟨?_, ?_, ?_, ?_⟩
  · intro items hok
    exact paginate_ok_length hok
  · intro items hok
    unfold blogListGet at hok
    cases hq : paginateQueryset (blogListQueryset posts now bparams) 10 page
      with
    | notFound => rw [hq] at hok; simp at hok
    | ok its =>
        rw [hq] at hok
        by_cases hf : settings.enable_blog
        · have h2 : its = items := by simpa [hf] using hok
          subst h2
          exact paginate_ok_length hq
        · simp [hf] at hok
  · intro h
    unfold projectListGet
    exact paginate_out_of_range h
  · intro h
    unfold blogListGet
    rw [paginate_out_of_range h]

/-- Sample published project for C5: the whole listing fits on page 1. -/
def c5Project : ProjectRow :=
  { id := 1, title := "Only", slug := "only", short_description := "d",
    category := none, tags := "api", status := "completed", github_url := "",
    is_featured := false, is_published := true, order := 0, created_at := 0 }

/-- C5 counterexample: with one published project (a single listing page)
the request for page 2 answers Http404 — it neither clamps to the last
page (which would render `[c5Project]`) nor returns an empty page. -/
theorem c5_counterexample :
    (projectListQueryset [] [c5Project] noGetParams).length = 1 ∧
    projectListGet [] [c5Project] noGetParams 2 = .notFound ∧
    projectListGet [] [c5Project] noGetParams 2 ≠ .ok [c5Project] ∧
    projectListGet [] [c5Project] noGetParams 2 ≠ .ok [] := by
  exact ⟨by decide, by decide, by decide, by decide⟩

/-- C5 witness: the amended theorem applied to the concrete table. -/
theorem c5_witness :
    projectListGet [] [c5Project] noGetParams 2 = .notFound := by
  have h := c5_pagination [] [c5Project] noGetParams defaultSiteSettings []
    10 { category := none, tag := none, search := none } 2
  exact h.2.2.1 (by decide)

/-- C6: for each slug-bearing model (ProjectCategory, Project, BlogPost),
a save performed after renaming leaves a non-empty slug untouched, and
the slug is slugified from the name/title exactly when the stored slug is
empty at save time. -/
theorem c6_slug_stable (c : ProjectCategoryRow) (p : ProjectRow)
    (b : BlogPostRow) (nn nt nbt : String) (hc : c.slug ≠ "")
    (hp : p.slug ≠ "") (hb : b.slug ≠ "") :
    (projectCategorySave { c with name := nn }).slug = c.slug ∧
    (projectSave { p with title := nt }).slug = p.slug ∧
    (blogPostSave { b with title := nbt }).slug = b.slug ∧
    (∀ c' : ProjectCategoryRow, c'.slug = "" →
      (projectCategorySave c').slug = slugify c'.name) ∧
    (∀ p' : ProjectRow, p'.slug = "" →
      (projectSave p').slug = slugify p'.title) ∧
    (∀ b' : BlogPostRow, b'.slug = "" →
      (blogPostSave b').slug = slugify b'.title) := by
  refine ⟨?_, ?_, ?_, ?_, ?_, ?_⟩
  · simp [projectCategorySave, hc]
  · simp [projectSave, hp]
  · simp [blogPostSave, hb]
  · intro c' h
    simp [projectCategorySave, h]
  · intro p' h
    simp [projectSave, h]
  · intro b' h
    simp [blogPostSave, h]

/-- Sample category with a slug already set, for the C6 witness. -/
def c6Cat : ProjectCategoryRow :=
  { id := 1, name := "Django Apps", slug := "django-apps", order := 0 }

/-- Sample project with a slug already set. -/
def c6Proj : ProjectRow :=
  { id := 1, title := "Portfolio", slug := "portfolio",
    short_description := "d", category := some 1, tags := "django",
    status := "completed", github_url := "", is_featured := false,
    is_published := true, order := 0, created_at := 0 }

/-- Sample blog post with a slug already set. -/
def c6Post : BlogPostRow :=
  { id := 1, title := "Hello World", slug := "hello-world", excerpt := "",
    content := "", category := "tech", tags := "a", status := "draft",
    published_at := none, view_count := 0, created_at := 0 }

/-- Sample blog post whose slug is still empty. -/
def c6Draft : BlogPostRow :=
  { c6Post with id := 2, slug := "", title := "My First Post" }

/-- C6 witness: renaming then saving keeps every concrete slug, and a save
with an empty slug derives it from the title. -/
theorem c6_witness :
    (projectCategorySave { c6Cat with name := "Renamed" }).slug =
      "django-apps" ∧
    (projectSave { c6Proj with title := "Renamed" }).slug = "portfolio" ∧
    (blogPostSave { c6Post with title := "Renamed" }).slug = "hello-world" ∧
    (blogPostSave c6Draft).slug = "my-first-post" := by
  have h := c6_slug_stable c6Cat c6Proj c6Post "Renamed" "Renamed" "Renamed"
    (by decide) (by decide) (by decide)
  refine ⟨h.1, h.2.1, h.2.2.1, ?_⟩
  rw [h.2.2.2.2.2 c6Draft rfl]
  decide

/-- C7: SiteSettings is a singleton — loading twice from an empty table
returns the very same pk-1 record both times and leaves exactly one row;
deleting is a no-op after which the record is still queryable; and every
save lands on pk 1: each row of the saved table is either the written
pk-1 record or a row that was already there, and the written record (with
its pk forced to 1) is always present afterwards. -/
theorem c7_sitesettings_singleton :
    (siteSettingsLoad []).1.pk = 1 ∧
    (siteSettingsLoad (siteSettingsLoad []).2).1 = (siteSettingsLoad []).1 ∧
    (siteSettingsLoad []).2.length = 1 ∧
    (siteSettingsLoad (siteSettingsLoad []).2).2 = (siteSettingsLoad []).2 ∧
    siteSettingsDelete (siteSettingsLoad []).2 = (siteSettingsLoad []).2 ∧
    ((siteSettingsLoad []).2.find? (fun r => r.pk == 1)).isSome = true ∧
    (∀ db s, ∀ r ∈ siteSettingsSave db s, r.pk = 1 ∨ r ∈ db) ∧
    (∀ db s, ({ s with pk := 1 } : SiteSettingsRow) ∈ siteSettingsSave db s) ∧
    (∀ db, siteSettingsDelete db = db) := by
  refine ⟨rfl, by decide, rfl, by decide, rfl, rfl, ?_, ?_, fun _ => rfl⟩
  · intro db s r hr
    unfold siteSettingsSave at hr
    by_cases hany : db.any (fun t => t.pk == 1)
    · rw [if_pos hany] at hr
      rcases List.mem_map.mp hr with ⟨x, hx, hfx⟩
      by_cases hpk : (x.pk == 1) = true
      · rw [if_pos hpk] at hfx
        exact Or.inl (by rw [← hfx])
      · rw [if_neg hpk] at hfx
        exact Or.inr (hfx ▸ hx)
    · rw [if_neg hany] at hr
      rcases List.mem_append.mp hr with hx | hx
      · exact Or.inr hx
      · exact Or.inl (by rw [List.mem_singleton.mp hx])
  · intro db s
    unfold siteSettingsSave
    by_cases hany : db.any (fun t => t.pk == 1)
    · rw [if_pos hany]
      rcases List.any_eq_true.mp hany with ⟨x, hx, hpk⟩
      exact List.mem_map.mpr ⟨x, hx, by rw [if_pos hpk]⟩
    · rw [if_neg hany]
      exact List.mem_append.mpr (Or.inr (List.mem_singleton.mpr rfl))

/-- C8: a structurally valid contact submission appends exactly one
ContactMessage — status "new", unread, with the client IP as
get_client_ip computes it (first X-Forwarded-For entry when that header
is present and non-empty, else the direct connection address) — and the
outcome is a success response that does not depend on whether the
notification email fails. -/
theorem c8_contact_valid (req : ContactRequest)
    (db : List ContactMessageRow) (emailFails : Bool)
    (hvalid : formErrors req = []) :
    ∃ msg : ContactMessageRow,
      (contact_submit req db emailFails).messagesDb = db ++ [msg] ∧
      msg.status = "new" ∧
      msg.is_read = false ∧
      msg.ip_address = get_client_ip req ∧
      msg.name = pyStrip req.post_name ∧
      msg.message = pyStrip req.post_message ∧
      (∀ x, req.http_x_forwarded_for = some x → x ≠ "" →
        msg.ip_address = some (firstForwarded x)) ∧
      (req.http_x_forwarded_for = none →
        msg.ip_address = req.remote_addr) ∧
      (contact_submit req db true).messagesDb =
        (contact_submit req db false).messagesDb ∧
      (contact_submit req db true).response =
        (contact_submit req db false).response ∧
      (contact_submit req db emailFails).emailAttempted = true ∧
      ((contact_submit req db emailFails).response = .jsonSuccess ∨
        (contact_submit req db emailFails).response = .redirectSuccess) := by
  refine ⟨⟨pyStrip req.post_name, pyStrip req.post_email,
      pyStrip req.post_subject, pyStrip req.post_message, "new",
      get_client_ip req, pyTake 500 (req.http_user_agent.getD ""), false⟩,
      ?_, rfl, rfl, rfl, rfl, rfl, ?_, ?_, rfl, rfl, ?_, ?_⟩
  · unfold contact_submit
    rw [if_pos hvalid]
  · intro x hx hne
    simp [get_client_ip, hx, hne]
  · intro hnone
    simp [get_client_ip, hnone]
  · unfold contact_submit
    rw [if_pos hvalid]
  · unfold contact_submit
    rw [if_pos hvalid]
    by_cases ha : req.is_ajax
    · exact Or.inl (by simp [ha])
    · exact Or.inr (by simp [ha])

/-- The claim's sample submission: Ana, via AJAX, behind a proxy chain. -/
def c8Req : ContactRequest :=
  { post_name := "Ana", post_email := "ana@x.com", post_subject := "Hi",
    post_message := "Hello", http_x_forwarded_for := some "9.9.9.9, 8.8.8.8",
    remote_addr := some "1.1.1.1", http_user_agent := some "UA",
    is_ajax := true }

/-- C8 witness: Ana's submission appends exactly one record even when the
notification email fails, and the captured IP is the first forwarded
entry. -/
theorem c8_witness :
    (contact_submit c8Req [] true).messagesDb.length = 1 ∧
    (contact_submit c8Req [] true).emailAttempted = true := by
  obtain ⟨msg, h1, -, -, -, -, -, -, -, -, -, h11, -⟩ :=
    c8_contact_valid c8Req [] true (by decide)
  constructor
  · rw [h1]
    rfl
  · exact h11

/-- C9: when contact-form validation fails, nothing is persisted and no
notification email is attempted; an AJAX request gets the error response
carrying `form.errors`, and a submission whose stripped message is empty
has "message" among the offending fields. -/
theorem c9_contact_invalid (req : ContactRequest)
    (db : List ContactMessageRow) (emailFails : Bool)
    (hinvalid : formErrors req ≠ []) :
    (contact_submit req db emailFails).messagesDb = db ∧
    (contact_submit req db emailFails).emailAttempted = false ∧
    (req.is_ajax = true →
      (contact_submit req db emailFails).response =
        .jsonError (formErrors req)) ∧
    (pyStrip req.post_message = "" → "message" ∈ formErrors req) := by
  refine ⟨?_, ?_, ?_, ?_⟩
  · unfold contact_submit
    rw [if_neg hinvalid]
  · unfold contact_submit
    rw [if_neg hinvalid]
  · intro hajax
    unfold contact_submit
    rw [if_neg hinvalid]
    simp [hajax]
  · intro hmsg
    unfold formErrors
    simp [hmsg]

/-- The claim's failing submission: the message field is missing (an
absent POST key reads as the empty string). -/
def c9Req : ContactRequest :=
  { post_name := "Ana", post_email := "ana@x.com", post_subject := "Hi",
    post_message := "", http_x_forwarded_for := none,
    remote_addr := some "1.1.1.1", http_user_agent := none,
    is_ajax := true }

/-- C9 witness: the message-less submission persists nothing, attempts no
email, and its AJAX error payload references the message field. -/
theorem c9_witness :
    (contact_submit c9Req [] false).messagesDb = [] ∧
    (contact_submit c9Req [] false).emailAttempted = false ∧
    "message" ∈ formErrors c9Req := by
  have h := c9_contact_invalid c9Req [] false (by decide)
  exact ⟨h.1, h.2.1, h.2.2.2 (by decide)⟩

/-- C10: a BlogPost whose status is "published" but whose published_at is
unset is excluded by the `published_at__lte=now` filter: it appears in no
blog listing queryset or page, and the blog detail route for its slug
answers Http404 without touching any row. -/
theorem c10_null_published_at_hidden (posts : List BlogPostRow) (now : Nat)
    (params : BlogListParams) (settings : SiteSettingsRow) (page : Nat)
    (p : BlogPostRow) (hmem : p ∈ posts) (hstatus : p.status = "published")
    (hnull : p.published_at = none)
    (huniq : ∀ q ∈ posts, q.slug = p.slug → q = p) :
    p ∉ blogListQueryset posts now params ∧
    (∀ items, blogListGet settings posts now params page = .ok items →
      p ∉ items) ∧
    (blogDetailGet settings posts now p.slug).1 = .notFound ∧
    (blogDetailGet settings posts now p.slug).2 = posts := by
  have hfind : (blogPublishedFilter posts now).find?
      (fun q => q.slug == p.slug) = none := by
    apply List.find?_eq_none.mpr
    intro x hx hbeq
    rcases mem_blogPublishedFilter hx with ⟨hxm, -, t, ht, -⟩
    have hxeq := huniq x hxm (eq_of_beq hbeq)
    rw [hxeq, hnull] at ht
    cases ht
  refine ⟨?_, ?_, ?_, ?_⟩
  · intro h
    rcases mem_blogPublishedFilter (mem_blogListQueryset h) with ⟨-, -, t, ht, -⟩
    rw [hnull] at ht
    cases ht
  · intro items hok hp
    unfold blogListGet at hok
    cases hq : paginateQueryset (blogListQueryset posts now params) 10 page
      with
    | notFound => rw [hq] at hok; simp at hok
    | ok its =>
        rw [hq] at hok
        by_cases hf : settings.enable_blog
        · have h2 : its = items := by simpa [hf] using hok
          subst h2
          have h3 := paginate_ok_mem hq hp
          rcases mem_blogPublishedFilter (mem_blogListQueryset h3) with
            ⟨-, -, t, ht, -⟩
          rw [hnull] at ht
          cases ht
        · simp [hf] at hok
  · unfold blogDetailGet
    rw [hfind]
  · unfold blogDetailGet
    rw [hfind]

/-- Sample post for C10: published status, published_at never set. -/
def c10Post : BlogPostRow :=
  { id := 9, title := "Ghost", slug := "ghost", excerpt := "", content := "",
    category := "tech", tags := "a", status := "published",
    published_at := none, view_count := 0, created_at := 0 }

/-- C10 witness: the theorem applied to the concrete one-post table with
the blog enabled. -/
theorem c10_witness :
    c10Post ∉ blogListQueryset [c10Post] 10
      { category := none, tag := none, search := none } ∧
    (blogDetailGet { defaultSiteSettings with enable_blog := true }
      [c10Post] 10 "ghost").1 = .notFound := by
  have h := c10_null_published_at_hidden [c10Post] 10
    { category := none, tag := none, search := none }
    { defaultSiteSettings with enable_blog := true } 1 c10Post (by decide)
    (by decide) (by decide) (by decide)
  exact ⟨h.1, h.2.2.1⟩

end Portfolio
